import Mathlib

/-!
Shallow embedding of `src/engine.c` (TinyWar engine), covering the named-entity
registries (objects, templates, fonts), object creation and id assignment, the
AABB collision and hover tests, tile bounds checking, the frame loop's event
drain, and the draw-color restore discipline of the shape primitives.

Conventions:
- C `int` fields are modelled as `Int`; the monotone id counter as `Nat`.
- Opaque pointers (SDL textures, user data, TTF fonts) carry no behaviour the
  claims depend on; they are modelled as `Nat` handles or omitted.
- A C function that can print a diagnostic and `exit(1)` is modelled as
  returning `Except String α`; a function with no fatal path returns plainly.
- Registries are singly linked lists; list-level models are used where the
  pointer code implements the evident list operation exactly (single unlink
  followed by `return`, tail append, head-to-tail scan).  `destroy_object_by_name`
  does not: its unlink loop advances `prev` onto a node it has just freed, so it
  is modelled at the pointer level (heap of numbered nodes plus a freed set).
-/

/-- Mirrors the C `Color` struct (`r`, `g`, `b`, `a` are `Uint8`). -/
structure Color where
  r : Nat
  g : Nat
  b : Nat
  a : Nat
deriving DecidableEq, Repr

/-- Mirrors the C `Object` struct.  The `texture` and `data` pointers are
opaque to every claim and omitted. -/
structure Object where
  id : Nat
  x : Int
  y : Int
  width : Int
  height : Int
  hitbox : Bool
deriving DecidableEq, Repr

/-- Mirrors `hitbox_is_colliding` (engine.c:807-809): strict AABB overlap. -/
def hitbox_is_colliding (hitbox1 hitbox2 : Object) : Bool :=
  decide (hitbox1.x < hitbox2.x + hitbox2.width) &&
  decide (hitbox1.x + hitbox1.width > hitbox2.x) &&
  decide (hitbox1.y < hitbox2.y + hitbox2.height) &&
  decide (hitbox1.y + hitbox1.height > hitbox2.y)

/-- Mirrors `object_is_hovered` (engine.c:953-959).  The mouse position that
`SDL_GetMouseState` writes into locals is passed in as `mouseX`, `mouseY`. -/
def object_is_hovered (mouseX mouseY : Int) (object : Object) : Bool :=
  decide (mouseX ≥ object.x) && decide (mouseX ≤ object.x + object.width) &&
  decide (mouseY ≥ object.y) && decide (mouseY ≤ object.y + object.height)

/-- Mirrors the C `Tilemap` struct; the `texture` handle is opaque and omitted. -/
structure Tilemap where
  tile_width : Int
  tile_height : Int
  spacing : Int
  nb_rows : Int
  nb_cols : Int
deriving DecidableEq, Repr

/-- Mirrors the C `Tile` struct (back-reference to the tilemap plus indices). -/
structure Tile where
  tilemap : Tilemap
  row : Int
  col : Int
deriving DecidableEq, Repr

/-- Mirrors `get_tile` (engine.c:349-367): fatal diagnostic when
`tile_row >= nb_rows || tile_col >= nb_cols`, otherwise allocates the tile. -/
def get_tile (tilemap : Tilemap) (tile_row tile_col : Int) : Except String Tile :=
  if tile_row ≥ tilemap.nb_rows ∨ tile_col ≥ tilemap.nb_cols then
    Except.error "Tile out of bounds"
  else
    Except.ok { tilemap := tilemap, row := tile_row, col := tile_col }

/-- C3: `hitbox_is_colliding` is exactly the strict AABB conjunction, and on
the spec's concrete boxes: touching edges do not collide, 1px overlap does. -/
theorem hitbox_is_colliding_strict :
    (∀ a b : Object, hitbox_is_colliding a b = true ↔
      (a.x < b.x + b.width ∧ a.x + a.width > b.x ∧
       a.y < b.y + b.height ∧ a.y + a.height > b.y)) ∧
    hitbox_is_colliding ⟨0, 0, 0, 10, 10, true⟩ ⟨1, 10, 0, 10, 10, true⟩ = false ∧
    hitbox_is_colliding ⟨0, 0, 0, 10, 10, true⟩ ⟨1, 9, 0, 10, 10, true⟩ = true := by
  refine ⟨fun a b => ?_, by decide, by decide⟩
  simp [hitbox_is_colliding, and_assoc]

/-- C4: `object_is_hovered` is the boundary-inclusive box test, and a pointer
exactly at `(x + width, y + height)` is hovered whenever the sizes are
nonnegative — inclusive bounds, unlike the strict collision test. -/
theorem object_is_hovered_inclusive :
    (∀ (mouseX mouseY : Int) (o : Object), object_is_hovered mouseX mouseY o = true ↔
      (o.x ≤ mouseX ∧ mouseX ≤ o.x + o.width ∧ o.y ≤ mouseY ∧ mouseY ≤ o.y + o.height)) ∧
    (∀ o : Object, 0 ≤ o.width → 0 ≤ o.height →
      object_is_hovered (o.x + o.width) (o.y + o.height) o = true) := by
  constructor
  · intro mouseX mouseY o
    simp [object_is_hovered, and_assoc]
  · intro o hw hh
    simp [object_is_hovered]
    omega

/-- Witness for `object_is_hovered_inclusive`: the corner pointer of a concrete
10×10 object at the origin is hovered. -/
theorem object_is_hovered_inclusive_witness :
    object_is_hovered 10 10 ⟨0, 0, 0, 10, 10, true⟩ = true := by
  have h := object_is_hovered_inclusive.2 ⟨0, 0, 0, 10, 10, true⟩ (by decide) (by decide)
  simpa using h

/-- C7: `get_tile` fails exactly when `row ≥ nb_rows ∨ col ≥ nb_cols`; on a
3×3 tilemap, `row = 3` (equality) fails while `row = -1` passes the check and
produces a tile (no lower-bound check). -/
theorem get_tile_bounds :
    (∀ (tm : Tilemap) (r c : Int),
      get_tile tm r c = Except.error "Tile out of bounds" ↔
        (r ≥ tm.nb_rows ∨ c ≥ tm.nb_cols)) ∧
    get_tile ⟨16, 16, 0, 3, 3⟩ 3 0 = Except.error "Tile out of bounds" ∧
    get_tile ⟨16, 16, 0, 3, 3⟩ (-1) 0 = Except.ok ⟨⟨16, 16, 0, 3, 3⟩, -1, 0⟩ := by
  refine ⟨fun tm r c => ?_, by rfl, by rfl⟩
  unfold get_tile
  split
  · simp_all
  · simp_all

/-- One `ObjectList` node: the owned name copy plus the object payload. -/
structure ObjEntry where
  name : String
  object : Object
deriving DecidableEq, Repr

/-- Mirrors `_add_object_to_list` (engine.c:445-471): scan to the tail and
link the new node there (it becomes the head when the list is empty). -/
def add_object_to_list (l : List ObjEntry) (object : Object) (name : String) : List ObjEntry :=
  match l with
  | [] => [{ name := name, object := object }]
  | x :: rest => x :: add_object_to_list rest object name

/-- Mirrors `get_object_by_name` (engine.c:570-581): scan from the head and
return the first node whose name is byte-equal (`strcmp == 0`); fatal
diagnostic when absent. -/
def get_object_by_name (l : List ObjEntry) (name : String) : Except String Object :=
  match l with
  | [] => Except.error "Object not found"
  | x :: rest => if x.name == name then Except.ok x.object else get_object_by_name rest name

/-- Mirrors `get_object_by_id` (engine.c:552-563): first id match from the
head; fatal diagnostic when absent. -/
def get_object_by_id (l : List ObjEntry) (id : Nat) : Except String Object :=
  match l with
  | [] => Except.error "Object not found"
  | x :: rest => if x.object.id == id then Except.ok x.object else get_object_by_id rest id

/-- Mirrors `destroy_object_by_id` (engine.c:587-606): unlink the first node
carrying this id, then `return`; when no node matches the loop silently falls
off the end — no diagnostic, no exit (hence no fatal path in the type). -/
def destroy_object_by_id (l : List ObjEntry) (id : Nat) : List ObjEntry :=
  match l with
  | [] => []
  | x :: rest => if x.object.id == id then rest else x :: destroy_object_by_id rest id

/-- Mirrors the C `ObjectTemplate` struct; the texture pointer is an opaque
handle. -/
structure ObjectTemplate where
  texture : Nat
  width : Int
  height : Int
  hitbox : Bool
deriving DecidableEq, Repr

/-- One `ObjectTemplateList` node. -/
structure TemplateEntry where
  name : String
  object_template : ObjectTemplate
deriving DecidableEq, Repr

/-- Mirrors `destroy_object_template` (engine.c:735-754): unlink the first
node whose name matches, then `return` — later duplicates stay registered. -/
def destroy_object_template (l : List TemplateEntry) (name : String) : List TemplateEntry :=
  match l with
  | [] => []
  | x :: rest => if x.name == name then rest else x :: destroy_object_template rest name

/-- One `Font` node (registered name plus an opaque TTF handle). -/
structure FontEntry where
  name : String
  font : Nat
deriving DecidableEq, Repr

/-- Mirrors `close_font` (engine.c:1108-1127): unlink the first name match,
then `return`; when absent the loop silently falls off the end. -/
def close_font (l : List FontEntry) (name : String) : List FontEntry :=
  match l with
  | [] => []
  | x :: rest => if x.name == name then rest else x :: close_font rest name

/-- C6: insertion appends at the tail; lookup scans from the head and returns
the first byte-equal name; inserting "a","b","a" into an empty registry and
looking up "a" yields the first-inserted "a" payload (id 0), not the second. -/
theorem registry_first_match_lookup :
    (∀ (l : List ObjEntry) (object : Object) (name : String),
      add_object_to_list l object name = l ++ [{ name := name, object := object }]) ∧
    (∀ (l1 l2 : List ObjEntry) (x : ObjEntry) (name : String),
      x.name = name → (∀ y ∈ l1, y.name ≠ name) →
      get_object_by_name (l1 ++ x :: l2) name = Except.ok x.object) ∧
    get_object_by_name
      (add_object_to_list (add_object_to_list (add_object_to_list []
        ⟨0, 0, 0, 1, 1, false⟩ "a") ⟨1, 0, 0, 1, 1, false⟩ "b") ⟨2, 0, 0, 1, 1, false⟩ "a") "a"
      = Except.ok ⟨0, 0, 0, 1, 1, false⟩ := by
  refine ⟨?_, ?_, by rfl⟩
  · intro l object name
    induction l with
    | nil => rfl
    | cons x rest ih => simp [add_object_to_list, ih]
  · intro l1 l2 x name hx hmiss
    induction l1 with
    | nil => simp [get_object_by_name, hx]
    | cons y rest ih =>
      have hy : (y.name == name) = false := by
        simp only [beq_eq_false_iff_ne, ne_eq]
        exact hmiss y (List.mem_cons_self y rest)
      simp only [List.cons_append, get_object_by_name, hy, if_neg]
      exact ih fun z hz => hmiss z (List.mem_cons_of_mem y hz)

/-- Witness for `registry_first_match_lookup`: a concrete two-entry registry
where the head matches. -/
theorem registry_first_match_lookup_witness :
    get_object_by_name
      ([] ++ (⟨"a", ⟨0, 0, 0, 1, 1, false⟩⟩ : ObjEntry) :: [⟨"b", ⟨1, 0, 0, 1, 1, false⟩⟩]) "a"
      = Except.ok ⟨0, 0, 0, 1, 1, false⟩ :=
  registry_first_match_lookup.2.1 [] [⟨"b", ⟨1, 0, 0, 1, 1, false⟩⟩]
    ⟨"a", ⟨0, 0, 0, 1, 1, false⟩⟩ "a" rfl (by simp)

/-- C2 counterexample: with two templates both named "a", destroying by name
unlinks only the first and a template named "a" stays registered. -/
theorem destroy_object_template_leaves_duplicate :
    destroy_object_template [⟨"a", ⟨0, 1, 1, false⟩⟩, ⟨"a", ⟨1, 2, 2, true⟩⟩] "a"
      = [⟨"a", ⟨1, 2, 2, true⟩⟩] ∧
    (destroy_object_template [⟨"a", ⟨0, 1, 1, false⟩⟩, ⟨"a", ⟨1, 2, 2, true⟩⟩] "a").any
      (fun e => e.name == "a") = true := by
  exact ⟨rfl, rfl⟩

/-- C2 amended: `destroy_object_template` removes exactly the first node whose
name matches — `List.eraseP` on the name predicate — preserving every other
node in order; duplicates later in the list remain. -/
theorem destroy_object_template_erases_first :
    ∀ (l : List TemplateEntry) (name : String),
      destroy_object_template l name = l.eraseP (fun e => e.name == name) := by
  intro l name
  induction l with
  | nil => rfl
  | cons x rest ih =>
    cases hx : (x.name == name) <;>
      simp [destroy_object_template, List.eraseP_cons, hx, ih]

/-- C10: with the id absent, `destroy_object_by_id` leaves the registry
unchanged, and with the name absent `close_font` leaves the font registry
unchanged — both silently, with no fatal path in their result type — while
`get_object_by_id` on an absent id is fatal (`NotFound` diagnostic). -/
theorem absent_key_removal_noop :
    (∀ (l : List ObjEntry) (id : Nat), (∀ e ∈ l, e.object.id ≠ id) →
      destroy_object_by_id l id = l) ∧
    (∀ (l : List FontEntry) (name : String), (∀ e ∈ l, e.name ≠ name) →
      close_font l name = l) ∧
    (∀ (l : List ObjEntry) (id : Nat), (∀ e ∈ l, e.object.id ≠ id) →
      get_object_by_id l id = Except.error "Object not found") := by
  refine ⟨?_, ?_, ?_⟩
  · intro l id h
    induction l with
    | nil => rfl
    | cons x rest ih =>
      have hx : (x.object.id == id) = false := by
        simp only [beq_eq_false_iff_ne, ne_eq]
        exact h x (List.mem_cons_self x rest)
      simp only [destroy_object_by_id, hx, if_neg, Bool.false_eq_true, not_false_iff]
      rw [ih fun z hz => h z (List.mem_cons_of_mem x hz)]
  · intro l name h
    induction l with
    | nil => rfl
    | cons x rest ih =>
      have hx : (x.name == name) = false := by
        simp only [beq_eq_false_iff_ne, ne_eq]
        exact h x (List.mem_cons_self x rest)
      simp only [close_font, hx, if_neg, Bool.false_eq_true, not_false_iff]
      rw [ih fun z hz => h z (List.mem_cons_of_mem x hz)]
  · intro l id h
    induction l with
    | nil => rfl
    | cons x rest ih =>
      have hx : (x.object.id == id) = false := by
        simp only [beq_eq_false_iff_ne, ne_eq]
        exact h x (List.mem_cons_self x rest)
      simp only [get_object_by_id, hx, if_neg, Bool.false_eq_true, not_false_iff]
      exact ih fun z hz => h z (List.mem_cons_of_mem x hz)

/-- Witness for `absent_key_removal_noop`: concrete one-entry registries and
an absent key for each conjunct. -/
theorem absent_key_removal_noop_witness :
    destroy_object_by_id [⟨"a", ⟨0, 0, 0, 1, 1, false⟩⟩] 5 = [⟨"a", ⟨0, 0, 0, 1, 1, false⟩⟩] ∧
    close_font [⟨"main", 7⟩] "missing" = [⟨"main", 7⟩] ∧
    get_object_by_id [⟨"a", ⟨0, 0, 0, 1, 1, false⟩⟩] 5 = Except.error "Object not found" :=
  ⟨absent_key_removal_noop.1 [⟨"a", ⟨0, 0, 0, 1, 1, false⟩⟩] 5 (by decide),
   absent_key_removal_noop.2.1 [⟨"main", 7⟩] "missing" (by decide),
   absent_key_removal_noop.2.2 [⟨"a", ⟨0, 0, 0, 1, 1, false⟩⟩] 5 (by decide)⟩

/-- An SDL event: the quit signal or any other event (opaque code). -/
inductive SDLEvent
  | quit
  | other (code : Nat)
deriving DecidableEq, Repr

/-- True exactly on the quit event. -/
def SDLEvent.isQuit : SDLEvent → Bool
  | .quit => true
  | .other _ => false

/-- Mirrors the `SDL_PollEvent` drain inside `engine_run` (engine.c:108-114):
events are examined in queue order; a quit event clears `isRunning` and is not
forwarded; any other event is forwarded to the user handler when one was
supplied (`event_handler != NULL`).  Returns the final `isRunning` flag and
the events forwarded to the handler. -/
def pollEvents (hasHandler : Bool) (isRunning : Bool) : List SDLEvent → Bool × List SDLEvent
  | [] => (isRunning, [])
  | SDLEvent.quit :: rest => pollEvents hasHandler false rest
  | SDLEvent.other c :: rest =>
    let r := pollEvents hasHandler isRunning rest
    (r.1, if hasHandler then SDLEvent.other c :: r.2 else r.2)

/-- Mirrors the `while (_engine->isRunning)` loop of `engine_run`
(engine.c:105-127) at the event level: each entry of the outer list is the
event queue drained by one would-be iteration; an iteration runs only while
the flag holds.  Returns, per iteration actually run, the events it forwarded
(update/clear/draw/present/delay have no bearing on the flag). -/
def engine_run (hasHandler : Bool) (isRunning : Bool) :
    List (List SDLEvent) → List (List SDLEvent)
  | [] => []
  | q :: qs =>
    if isRunning then
      let r := pollEvents hasHandler isRunning q
      r.2 :: engine_run hasHandler r.1 qs
    else []

/-- The events a drain forwards do not depend on the running flag: with a
handler supplied they are exactly the non-quit events in queue order. -/
theorem pollEvents_forwarded (hh r : Bool) (q : List SDLEvent) :
    (pollEvents hh r q).2 = if hh then q.filter (fun e => !e.isQuit) else [] := by
  induction q generalizing r with
  | nil => cases hh <;> simp [pollEvents]
  | cons e rest ih =>
    cases e with
    | quit => simpa [pollEvents, SDLEvent.isQuit] using ih false
    | other c => cases hh <;> simp [pollEvents, SDLEvent.isQuit, ih r]

/-- The drain leaves the running flag set iff it was set and no quit event
was queued; a quit event clears it unconditionally. -/
theorem pollEvents_flag (hh r : Bool) (q : List SDLEvent) :
    (pollEvents hh r q).1 = (r && !q.any SDLEvent.isQuit) := by
  induction q generalizing r with
  | nil => simp [pollEvents]
  | cons e rest ih =>
    cases e with
    | quit => simp [pollEvents, SDLEvent.isQuit, ih false]
    | other c => simp [pollEvents, SDLEvent.isQuit, ih r]

/-- C8: in each frame iteration a quit event clears the running flag
unconditionally and is never forwarded, every non-quit event is forwarded to
the supplied handler in queue order, and Stopped is terminal — a stopped loop
runs no iteration, and an iteration whose queue held a quit is the last one. -/
theorem engine_run_quit_terminal :
    (∀ q : List SDLEvent, (pollEvents true true q).2 = q.filter (fun e => !e.isQuit)) ∧
    (∀ (hh r : Bool) (q : List SDLEvent),
      (pollEvents hh r q).1 = (r && !q.any SDLEvent.isQuit)) ∧
    (∀ (hh : Bool) (qs : List (List SDLEvent)), engine_run hh false qs = []) ∧
    (∀ (hh : Bool) (q : List SDLEvent) (qs : List (List SDLEvent)),
      engine_run hh true (q :: qs) = (pollEvents hh true q).2 ::
        (if q.any SDLEvent.isQuit then [] else engine_run hh true qs)) := by
  refine ⟨fun q => by simp [pollEvents_forwarded], pollEvents_flag, ?_, ?_⟩
  · intro hh qs
    cases qs <;> simp [engine_run]
  · intro hh q qs
    simp only [engine_run, if_pos trivial, pollEvents_flag, Bool.true_and]
    cases hq : q.any SDLEvent.isQuit with
    | true => cases qs <;> simp [hq, engine_run]
    | false => simp [hq]

/-- The renderer state the shape primitives act on: the draw color last set
through `SDL_SetRenderDrawColor`. -/
structure RendererState where
  drawColor : Color
deriving DecidableEq, Repr

/-- Mirrors `SDL_SetRenderDrawColor`. -/
def sdlSetRenderDrawColor (st : RendererState) (c : Color) : RendererState :=
  { st with drawColor := c }

/-- Mirrors the static `_color` (engine.c:9): the tracked current draw color.
It is initialised to opaque black and never reassigned anywhere in engine.c. -/
def trackedColor : Color := ⟨0, 0, 0, 255⟩

/-- Mirrors `draw_line` (engine.c:823-827): the external `lineRGBA` primitive
(an opaque effect on the renderer, passed as a function) runs first, then
`SDL_SetRenderDrawColor` restores the tracked color. -/
def draw_line (lineRGBA : Color → RendererState → RendererState)
    (st : RendererState) (color tracked : Color) : RendererState :=
  sdlSetRenderDrawColor (lineRGBA color st) tracked

/-- Mirrors `draw_rect` (engine.c:837-841). -/
def draw_rect (rectangleRGBA : Color → RendererState → RendererState)
    (st : RendererState) (color tracked : Color) : RendererState :=
  sdlSetRenderDrawColor (rectangleRGBA color st) tracked

/-- Mirrors `draw_ellipse` (engine.c:851-855). -/
def draw_ellipse (ellipseRGBA : Color → RendererState → RendererState)
    (st : RendererState) (color tracked : Color) : RendererState :=
  sdlSetRenderDrawColor (ellipseRGBA color st) tracked

/-- Mirrors `draw_circle` (engine.c:864-868). -/
def draw_circle (circleRGBA : Color → RendererState → RendererState)
    (st : RendererState) (color tracked : Color) : RendererState :=
  sdlSetRenderDrawColor (circleRGBA color st) tracked

/-- Mirrors `draw_line_thick` (engine.c:879-883). -/
def draw_line_thick (thickLineRGBA : Color → RendererState → RendererState)
    (st : RendererState) (color tracked : Color) : RendererState :=
  sdlSetRenderDrawColor (thickLineRGBA color st) tracked

/-- Mirrors `draw_rect_thick` (engine.c:894-901): four `thickLineRGBA` edge
draws, then a single restore. -/
def draw_rect_thick (thickLineRGBA : Color → RendererState → RendererState)
    (st : RendererState) (color tracked : Color) : RendererState :=
  sdlSetRenderDrawColor
    (thickLineRGBA color (thickLineRGBA color (thickLineRGBA color (thickLineRGBA color st))))
    tracked

/-- Mirrors `draw_circle_thick` (engine.c:911-915). -/
def draw_circle_thick (thickCircleRGBA : Color → RendererState → RendererState)
    (st : RendererState) (color tracked : Color) : RendererState :=
  sdlSetRenderDrawColor (thickCircleRGBA color st) tracked

/-- Mirrors `draw_ellipse_thick` (engine.c:926-930). -/
def draw_ellipse_thick (thickEllipseRGBA : Color → RendererState → RendererState)
    (st : RendererState) (color tracked : Color) : RendererState :=
  sdlSetRenderDrawColor (thickEllipseRGBA color st) tracked

/-- C9: the tracked current draw color defaults to opaque black, and after
every shape-drawing call — whatever the external primitive did to the
renderer and whatever transient color was passed — the renderer's draw color
equals the tracked current draw color. -/
theorem shape_calls_restore_draw_color :
    trackedColor = ⟨0, 0, 0, 255⟩ ∧
    (∀ (g : Color → RendererState → RendererState) (st : RendererState) (c t : Color),
      (draw_line g st c t).drawColor = t ∧
      (draw_rect g st c t).drawColor = t ∧
      (draw_ellipse g st c t).drawColor = t ∧
      (draw_circle g st c t).drawColor = t ∧
      (draw_line_thick g st c t).drawColor = t ∧
      (draw_rect_thick g st c t).drawColor = t ∧
      (draw_circle_thick g st c t).drawColor = t ∧
      (draw_ellipse_thick g st c t).drawColor = t) :=
  ⟨rfl, fun _ _ _ _ => ⟨rfl, rfl, rfl, rfl, rfl, rfl, rfl, rfl⟩⟩

/-- The engine's object bookkeeping: the process-wide `_object_id` counter
(engine.c:4) and the `_object_list` registry, at the list level. -/
structure ObjectsState where
  nextId : Nat
  objects : List ObjEntry
deriving Repr

/-- Mirrors `create_object` (engine.c:485-505): `object->id = _object_id++`
(return the current counter, then increment it — the counter is written by no
other function in engine.c), build the record, append it to the registry
under `name`, and return the object. -/
def create_object (st : ObjectsState) (name : String) (x y width height : Int)
    (hitbox : Bool) : Object × ObjectsState :=
  let object : Object :=
    { id := st.nextId, x := x, y := y, width := width, height := height, hitbox := hitbox }
  (object, { nextId := st.nextId + 1, objects := add_object_to_list st.objects object name })

/-- Mirrors `destroy_all_objects` (engine.c:635-646): free every node and set
`_object_list = NULL`; `_object_id` is not touched. -/
def destroy_all_objects (st : ObjectsState) : ObjectsState :=
  { st with objects := [] }

/-- One operation of claim C5's interleavings: a `create_object` call or any
of the destroy operations. -/
inductive RegOp
  | create (name : String) (x y width height : Int) (hitbox : Bool)
  | destroyById (id : Nat)
  | destroyByName (name : String)
  | destroyAll

/-- Run a sequence of operations from a state, collecting the ids returned by
the `create_object` calls in order.  None of the destroy functions reads or
writes `_object_id`; `destroy_object_by_name`'s pointer-level deviation on
adjacent duplicates (see `destroyByNameLoop` below) also never touches the
counter, so its effect on the list is rendered here as a name filter, which
the id trace cannot observe. -/
def runOps (st : ObjectsState) : List RegOp → ObjectsState × List Nat
  | [] => (st, [])
  | op :: ops =>
    match op with
    | .create name x y w h hb =>
      let r := create_object st name x y w h hb
      let rest := runOps r.2 ops
      (rest.1, r.1.id :: rest.2)
    | .destroyById id => runOps { st with objects := destroy_object_by_id st.objects id } ops
    | .destroyByName name =>
      runOps { st with objects := st.objects.filter (fun e => !(e.name == name)) } ops
    | .destroyAll => runOps (destroy_all_objects st) ops

/-- Number of `create` operations in a sequence. -/
def countCreate : List RegOp → Nat
  | [] => 0
  | RegOp.create _ _ _ _ _ _ :: ops => countCreate ops + 1
  | RegOp.destroyById _ :: ops => countCreate ops
  | RegOp.destroyByName _ :: ops => countCreate ops
  | RegOp.destroyAll :: ops => countCreate ops

/-- From any starting counter `k`, the ids handed out by the creates of an
operation sequence are `k, k+1, k+2, …` — the destroys never move the
counter. -/
theorem runOps_id_trace (ops : List RegOp) :
    ∀ st : ObjectsState, (runOps st ops).2
      = (List.range (countCreate ops)).map (st.nextId + ·) := by
  induction ops with
  | nil => intro st; simp [runOps, countCreate]
  | cons op ops ih =>
    intro st
    cases op with
    | create name x y w h hb =>
      simp only [runOps, create_object, countCreate, ih, List.range_succ_eq_map,
        List.map_cons, List.map_map]
      simp only [List.cons.injEq]
      constructor
      · omega
      · apply List.map_congr_left
        intro i _
        simp only [Function.comp_apply]
        omega
    | destroyById id => simpa [runOps, countCreate] using ih _
    | destroyByName name => simpa [runOps, countCreate] using ih _
    | destroyAll => simpa [runOps, countCreate, destroy_all_objects] using ih _

/-- C5: over any interleaving of creates and destroys started at process
start (`_object_id = 0`, empty registry), the ids returned by `create_object`
are exactly `0, 1, 2, …`: the trace equals `List.range` of the number of
creates, is strictly increasing (hence no id repeats or is ever reused), and
its first element — when any create happened — is 0. -/
theorem create_object_ids_monotone :
    ∀ ops : List RegOp,
      (runOps ⟨0, []⟩ ops).2 = List.range (countCreate ops) ∧
      List.Pairwise (· < ·) (runOps ⟨0, []⟩ ops).2 ∧
      (runOps ⟨0, []⟩ ops).2.head? = if countCreate ops = 0 then none else some 0 := by
  intro ops
  have h := runOps_id_trace ops ⟨0, []⟩
  simp only [Nat.zero_add] at h
  have hrange : (runOps (⟨0, []⟩ : ObjectsState) ops).2 = List.range (countCreate ops) := by
    simpa using h
  refine ⟨hrange, ?_, ?_⟩
  · rw [hrange]; exact List.pairwise_lt_range _
  · rw [hrange]
    cases hn : countCreate ops with
    | zero => simp
    | succ n => simp [List.range_succ_eq_map]

/-- One heap cell of the pointer-level object registry: the stored name and
the `next` pointer (the payload is irrelevant to the unlink logic). -/
structure HeapNode where
  name : String
  next : Option Nat
deriving DecidableEq, Repr

/-- A pointer-level registry: a heap of numbered cells, the `_object_list`
head pointer, and the set of pointers already passed to `free`.  A freed cell
keeps its last-written contents — as freed memory typically does — so reads
through dangling pointers are modelled and recorded via `freed`. -/
structure PtrRegistry where
  heap : List (Nat × HeapNode)
  head : Option Nat
  freed : List Nat
deriving DecidableEq, Repr

/-- Dereference a node pointer. -/
def heapGet (h : List (Nat × HeapNode)) (p : Nat) : Option HeapNode :=
  match h with
  | [] => none
  | (q, n) :: rest => if q == p then some n else heapGet rest p

/-- Write a node's `next` field. -/
def heapSetNext (h : List (Nat × HeapNode)) (p : Nat) (nx : Option Nat) :
    List (Nat × HeapNode) :=
  match h with
  | [] => []
  | (q, n) :: rest =>
    if q == p then (q, { n with next := nx }) :: rest
    else (q, n) :: heapSetNext rest p nx

/-- The loop of `destroy_object_by_name` (engine.c:612-630), transcribed
pointer by pointer.  On a name match the node is unlinked (`_object_list =
current->next` when `prev == NULL`, else `prev->next = current->next`) and
freed; then — unconditionally, exactly as in the C code — `prev = current;
current = current->next;`, so after a removal `prev` is left pointing at the
node just freed and the advance reads the freed node's `next`.  `fuel` bounds
the traversal (the C loop visits each node once). -/
def destroyByNameLoop (fuel : Nat) (name : String) (st : PtrRegistry)
    (prev current : Option Nat) : PtrRegistry :=
  match fuel with
  | 0 => st
  | fuel + 1 =>
    match current with
    | none => st
    | some c =>
      match heapGet st.heap c with
      | none => st
      | some node =>
        if node.name == name then
          let st1 : PtrRegistry :=
            match prev with
            | none => { st with head := node.next, freed := c :: st.freed }
            | some p =>
              { st with heap := heapSetNext st.heap p node.next, freed := c :: st.freed }
          destroyByNameLoop fuel name st1 (some c) node.next
        else
          destroyByNameLoop fuel name st (some c) node.next

/-- Mirrors `destroy_object_by_name` (engine.c:612-630): run the unlink loop
from the head with `prev = NULL`. -/
def destroy_object_by_name (name : String) (st : PtrRegistry) : PtrRegistry :=
  destroyByNameLoop (st.heap.length + 1) name st none st.head

/-- The names reachable from a pointer by following `next`, fuel-bounded:
what a subsequent traversal of the registry observes. -/
def reachNames (h : List (Nat × HeapNode)) : Nat → Option Nat → List String
  | 0, _ => []
  | _ + 1, none => []
  | fuel + 1, some p =>
    match heapGet h p with
    | none => []
    | some n => n.name :: reachNames h fuel n.next

/-- Three objects registered in insertion order under names "a", "a", "b":
cell 0 is the list head. -/
def aabRegistry : PtrRegistry :=
  { heap := [(0, ⟨"a", some 1⟩), (1, ⟨"a", some 2⟩), (2, ⟨"b", none⟩)],
    head := some 0, freed := [] }

/-- C1: on the registry "a","a","b" — two matching nodes adjacent —
`destroy_object_by_name "a"` does NOT leave exactly the non-matching nodes:
after the pass the head points at the second "a" cell, which was freed but
never unlinked (the unlink wrote through `prev`, which pointed at the cell
freed one step earlier), so a traversal still sees name "a" and walks freed
memory instead of the claimed `["b"]`. -/
theorem destroy_object_by_name_adjacent_bug :
    reachNames (destroy_object_by_name "a" aabRegistry).heap 10
        (destroy_object_by_name "a" aabRegistry).head = ["a", "b"] ∧
    (destroy_object_by_name "a" aabRegistry).head = some 1 ∧
    1 ∈ (destroy_object_by_name "a" aabRegistry).freed ∧
    reachNames (destroy_object_by_name "a" aabRegistry).heap 10
        (destroy_object_by_name "a" aabRegistry).head ≠ ["b"] :=
  ⟨rfl, rfl, by decide, by decide⟩
